import Mathlib

/-!
Verification of the glassfibre preprocessing pipeline
(`src/glassfibre/preprocessing.py`).

The development shallowly embeds the pure logic of the module:

* `remove_small_shapes` — pruning of small multipolygon fragments,
  with geometries represented by the areas of their constituent parts;
* `get_countries` — filtering of the country roster by the `Exclude`
  flag followed by a full-frame random sample, modelled by an arbitrary
  permutation-producing sampler;
* `ProcessRegions.process_regions` — the per-level loop with its
  try/except around the shapefile write, modelled with an explicit
  `Except` for the write and an event log;
* `ProcessPopulation.process_population_tif` — clamping of raster
  cells, nodata exclusion, the zonal sum, the GID_2 → GID_1 fallback
  (column access modelled as an association-list lookup that can fail,
  mirroring a pandas KeyError), the dropna over the population column
  and the integer coercion;
* the four LCA calculators `lca_manufacturing`, `lca_eolt`,
  `lca_trans`, `lca_operations`.  Their lookup tables live in
  `glassfibre.inputs`, which is not part of the repository, so the
  tables are modelled parametrically: structures whose fields are
  exactly the keys the code reads, with unspecified rational values.

Machine floats are modelled by `ℚ`; `astype(int)` by integer division
of numerator by denominator (truncation toward zero); `round(4)` by
round-half-to-even at four decimals, as numpy does.
-/

/-! ## Static lookup tables (modelled) -/

/-- Modelled from the spec: the `manufacturing` entry of the `weights`
table imported from `glassfibre.inputs`, which is missing from the
repository.  The fields are exactly the keys read by
`lca_manufacturing` and `lca_eolt`; the numeric values are unspecified. -/
structure ManufacturingWeights where
  fiber_cable_per_km_kg : ℚ
  pcb_kg : ℚ
  aluminium_bru_kg : ℚ
  copper_antenna_kg : ℚ
  aluminium_antenna_kg : ℚ
  pvc_antenna_kg : ℚ
  iron_antenna_kg : ℚ
  steel_antenna_kg : ℚ
  aluminium_frame_kg : ℚ
  concrete_kg : ℚ
  aluminium_device_kg : ℚ
deriving DecidableEq, Repr

/-- Modelled from the spec: the `weights` table of `glassfibre.inputs`
(missing from the repository); the code only reads its `manufacturing`
entry. -/
structure Weights where
  manufacturing : ManufacturingWeights
deriving DecidableEq, Repr

/-- Modelled from the spec: the `mfg_emissions` entry of the
`carbon_factors` table of `glassfibre.inputs` (missing from the
repository), with exactly the keys read by `lca_manufacturing`. -/
structure MfgEmissionFactors where
  glass_kg_co2e : ℚ
  pcb_kg_co2e : ℚ
  aluminium_kg_co2e : ℚ
  copper_kg_co2e : ℚ
  pvc_kg_co2e : ℚ
  iron_kg_co2e : ℚ
  steel_kg_co2e : ℚ
  concrete_kg_co2e : ℚ
deriving DecidableEq, Repr

/-- Modelled from the spec: the `eolt_emissions` entry of the
`carbon_factors` table of `glassfibre.inputs` (missing from the
repository), with exactly the keys read by `lca_eolt`. -/
structure EoltEmissionFactors where
  glass_kg_co2e : ℚ
  pcb_kg_co2e : ℚ
  metals_kg_co2e : ℚ
  concrete_kg_co2e : ℚ
deriving DecidableEq, Repr

/-- Modelled from the spec: the `trans_emissions` entry of the
`carbon_factors` table of `glassfibre.inputs` (missing from the
repository), with exactly the key read by `lca_trans`. -/
structure TransEmissionFactors where
  olnu_router_kg_co2e : ℚ
deriving DecidableEq, Repr

/-- Modelled from the spec: the `carbon_factors` dictionary of
`glassfibre.inputs` (missing from the repository), keyed by LCA phase;
the code selects each phase entry by comparing dictionary keys. -/
structure CarbonFactors where
  mfg_emissions : MfgEmissionFactors
  eolt_emissions : EoltEmissionFactors
  trans_emissions : TransEmissionFactors
deriving DecidableEq, Repr

/-- Modelled from the spec: a single record of the `operations` table
of `glassfibre.inputs` (missing from the repository), with exactly the
keys read by `lca_operations`. -/
structure OperationRecord where
  cpe_power_kwh : ℚ
  base_station_pwr_kwh : ℚ
  terminal_unit_pwr_kwh : ℚ
deriving DecidableEq, Repr

/-! ## LCA calculators -/

/-- Emission dictionary built by `lca_manufacturing` and `lca_eolt`:
one GHG total per material category plus the phase tag. -/
structure EmissionDict where
  aluminium_ghg : ℚ
  optic_fiber_ghg : ℚ
  steel_iron_ghg : ℚ
  concrete_ghg : ℚ
  plastics_ghg : ℚ
  other_metals_ghg : ℚ
  lca_phase : String
deriving DecidableEq, Repr

/-- Emission dictionary built by `lca_trans`. -/
structure TransEmissionDict where
  optic_fiber_ghg : ℚ
  lca_phase : String
deriving DecidableEq, Repr

/-- Emission dictionary built by `lca_operations`. -/
structure OpsEmissionDict where
  cpe_power : ℚ
  base_station_power_kwh : ℚ
  terminal_unit_pwr_kwh : ℚ
  lca_phase : String
deriving DecidableEq, Repr

/-- Manufacturing-phase LCA: mirrors `lca_manufacturing`.  The Python
loop over `carbon_factors.items()` selecting key `mfg_emissions`, and
over `weights.items()` selecting key `manufacturing`, is embedded as
direct field access; the inner loop variable `key` holds the string
manufacturing when `lca_phase` is assigned. -/
def lca_manufacturing (weights : Weights) (carbon_factors : CarbonFactors) :
    EmissionDict :=
  let item := weights.manufacturing
  let carbon_factor := carbon_factors.mfg_emissions
  let fiber_cable_ghg := item.fiber_cable_per_km_kg * carbon_factor.glass_kg_co2e
  let pcb_ghg := item.pcb_kg * carbon_factor.pcb_kg_co2e
  let alu_bbu__ghg := item.aluminium_bru_kg * carbon_factor.aluminium_kg_co2e
  let cu_antenna_ghg := item.copper_antenna_kg * carbon_factor.copper_kg_co2e
  let alu_antenna_ghg := item.aluminium_antenna_kg * carbon_factor.aluminium_kg_co2e
  let pvc_ghg := item.pvc_antenna_kg * carbon_factor.pvc_kg_co2e
  let iron_ghg := item.iron_antenna_kg * carbon_factor.iron_kg_co2e
  let steel_ghg := item.steel_antenna_kg * carbon_factor.steel_kg_co2e
  let alu_frame_ghg := item.aluminium_frame_kg * carbon_factor.aluminium_kg_co2e
  let concrete_ghg := item.concrete_kg * carbon_factor.concrete_kg_co2e
  let alu_device_ghg := item.aluminium_device_kg * carbon_factor.aluminium_kg_co2e
  { aluminium_ghg := alu_bbu__ghg + alu_antenna_ghg + alu_frame_ghg + alu_device_ghg
    optic_fiber_ghg := fiber_cable_ghg
    steel_iron_ghg := iron_ghg + steel_ghg
    concrete_ghg := concrete_ghg
    plastics_ghg := pcb_ghg + pvc_ghg
    other_metals_ghg := cu_antenna_ghg
    lca_phase := "manufacturing" }

/-- End-of-life-phase LCA: mirrors `lca_eolt`.  All metal weights are
multiplied by the single `metals_kg_co2e` factor and the PVC weight by
the `pcb_kg_co2e` factor, exactly as in the source. -/
def lca_eolt (weights : Weights) (carbon_factors : CarbonFactors) :
    EmissionDict :=
  let item := weights.manufacturing
  let carbon_factor := carbon_factors.eolt_emissions
  let fiber_cable_ghg := item.fiber_cable_per_km_kg * carbon_factor.glass_kg_co2e
  let pcb_ghg := item.pcb_kg * carbon_factor.pcb_kg_co2e
  let alu_bbu__ghg := item.aluminium_bru_kg * carbon_factor.metals_kg_co2e
  let cu_antenna_ghg := item.copper_antenna_kg * carbon_factor.metals_kg_co2e
  let alu_antenna_ghg := item.aluminium_antenna_kg * carbon_factor.metals_kg_co2e
  let pvc_ghg := item.pvc_antenna_kg * carbon_factor.pcb_kg_co2e
  let iron_ghg := item.iron_antenna_kg * carbon_factor.metals_kg_co2e
  let steel_ghg := item.steel_antenna_kg * carbon_factor.metals_kg_co2e
  let alu_frame_ghg := item.aluminium_frame_kg * carbon_factor.metals_kg_co2e
  let concrete_ghg := item.concrete_kg * carbon_factor.concrete_kg_co2e
  let alu_device_ghg := item.aluminium_device_kg * carbon_factor.metals_kg_co2e
  { aluminium_ghg := alu_bbu__ghg + alu_antenna_ghg + alu_frame_ghg + alu_device_ghg
    optic_fiber_ghg := fiber_cable_ghg
    steel_iron_ghg := iron_ghg + steel_ghg
    concrete_ghg := concrete_ghg
    plastics_ghg := pcb_ghg + pvc_ghg
    other_metals_ghg := cu_antenna_ghg
    lca_phase := "eolt" }

/-- Transport-phase LCA: mirrors `lca_trans`.  The single total is the
`olnu_router_kg_co2e` entry of the `trans_emissions` factors, with no
weight multiplication in the source. -/
def lca_trans (carbon_factors : CarbonFactors) : TransEmissionDict :=
  let carbon_factor := carbon_factors.trans_emissions
  let fiber_cable_ghg := carbon_factor.olnu_router_kg_co2e
  { optic_fiber_ghg := fiber_cable_ghg
    lca_phase := "trans" }

/-- Operations-phase LCA: mirrors `lca_operations`.  The Python loop
over `operations.items()` rewrites every dictionary entry on each
iteration, so the result holds the values of the last record; an empty
table yields an empty dictionary, modelled by `none`. -/
def lca_operations (operations : List (String × OperationRecord)) :
    Option OpsEmissionDict :=
  operations.foldl
    (fun _ kv =>
      some { cpe_power := kv.2.cpe_power_kwh
             base_station_power_kwh := kv.2.base_station_pwr_kwh
             terminal_unit_pwr_kwh := kv.2.terminal_unit_pwr_kwh
             lca_phase := "ops" })
    none

/-- Weight values of the modelled manufacturing weights table, as
a list, used to state what "a weight taken from the static lookup
tables" means. -/
def allWeightValues (w : ManufacturingWeights) : List ℚ :=
  [w.fiber_cable_per_km_kg, w.pcb_kg, w.aluminium_bru_kg,
   w.copper_antenna_kg, w.aluminium_antenna_kg, w.pvc_antenna_kg,
   w.iron_antenna_kg, w.steel_antenna_kg, w.aluminium_frame_kg,
   w.concrete_kg, w.aluminium_device_kg]

/-- Manufacturing weight table with every weight zero, used as a
concrete instantiation of the modelled tables. -/
def zeroWeights : ManufacturingWeights :=
  ⟨0, 0, 0, 0, 0, 0, 0, 0, 0, 0, 0⟩

/-- Carbon-factor tables with every factor zero except the transport
entry `olnu_router_kg_co2e = 5`, used as a concrete instantiation of
the modelled tables. -/
def cexCarbonFactors : CarbonFactors :=
  { mfg_emissions := ⟨0, 0, 0, 0, 0, 0, 0, 0⟩
    eolt_emissions := ⟨0, 0, 0, 0⟩
    trans_emissions := ⟨5⟩ }

/-! ## Shape simplifier -/

/-- Geometry of a feature, abstracted to what `remove_small_shapes`
inspects: single polygons carry their area, multipolygons the list of
areas of their constituent parts (the area of the whole being their
sum), and any other geometry type carries only its type name. -/
inductive Geometry
  | polygon (area : ℚ)
  | multiPolygon (parts : List ℚ)
  | other (geomType : String)
deriving DecidableEq, Repr

/-- Total area of a geometry: for a multipolygon it is the sum of the
areas of its parts. -/
def Geometry.area : Geometry → ℚ
  | .polygon a => a
  | .multiPolygon parts => parts.sum
  | .other _ => 0

/-- Whether a geometry contains at least one polygon part. -/
def Geometry.hasParts : Geometry → Prop
  | .polygon _ => True
  | .multiPolygon parts => parts ≠ []
  | .other _ => False

instance : DecidablePred Geometry.hasParts := fun g => by
  cases g <;> simp [Geometry.hasParts] <;> infer_instance

/-- Dataframe row passed to `remove_small_shapes`: the country code
column `GID_0` and the geometry column. -/
structure FeatureRow where
  GID_0 : String
  geometry : Geometry
deriving DecidableEq, Repr

/-- Mirrors `remove_small_shapes`.  A Python function body that falls
through every branch returns `None`, so the result is an `Option`. -/
def remove_small_shapes (x : FeatureRow) : Option Geometry :=
  match x.geometry with
  | Geometry.polygon a => some (Geometry.polygon a)
  | Geometry.multiPolygon parts =>
      let area1 : ℚ := 1/100
      let area2 : ℚ := 50
      if parts.sum < area1 then some (Geometry.multiPolygon parts)
      else
        let threshold : ℚ :=
          if x.GID_0 ∈ ["CHL", "IDN"] then 1/100
          else if x.GID_0 ∈ ["RUS", "GRL", "CAN", "USA"] then 1/100
          else if parts.sum > area2 then 1/10
          else 1/1000
        some (Geometry.multiPolygon (parts.filter (fun y => decide (threshold < y))))
  | Geometry.other _ => none

/-- Threshold as the specification phrases it: 0.01 for the six listed
countries, the country check taking precedence; otherwise 0.1 when the
total area exceeds 50; otherwise 0.001. -/
def smallShapeThreshold (gid0 : String) (totalArea : ℚ) : ℚ :=
  if gid0 ∈ ["CHL", "IDN", "RUS", "GRL", "CAN", "USA"] then 1/100
  else if totalArea > 50 then 1/10
  else 1/1000

/-! ## Country roster -/

/-- Row of the country-metadata CSV read by `get_countries`: the iso3
code and the numeric `Exclude` flag (other metadata columns do not
influence the function). -/
structure CountryRow where
  iso3 : String
  exclude : ℤ
deriving DecidableEq, Repr

/-- Mirrors `ProcessCountry.get_countries`: keep the rows whose
`Exclude` flag equals 0, then `sample(frac = 1)`, the pandas full-frame
random sample, modelled by a caller-supplied sampler that returns its
input in some order. -/
def get_countries (sample : List CountryRow → List CountryRow)
    (countries : List CountryRow) : List CountryRow :=
  sample (countries.filter (fun r => decide (r.exclude = 0)))

/-! ## Region processing -/

/-- Outcome of one regional level in `process_regions`: the level was
skipped because its output already exists, written successfully, or its
write failed and the failure was logged. -/
inductive RegionEvent
  | skipped (level : ℕ)
  | written (level : ℕ)
  | writeFailed (level : ℕ) (msg : String)
deriving DecidableEq, Repr

/-- Regional level an event belongs to. -/
def RegionEvent.level : RegionEvent → ℕ
  | .skipped l => l
  | .written l => l
  | .writeFailed l _ => l

/-- Loop body of `process_regions` over a list of regional levels.  A
level whose processed file already exists is skipped (`continue`);
otherwise the shapefile write is attempted once, its failure is caught
and logged (`except: print(...); pass`) and the loop moves on to the
next level. -/
def processLevels (pathExists : ℕ → Bool)
    (writeShapefile : ℕ → Except String Unit) : List ℕ → List RegionEvent
  | [] => []
  | l :: ls =>
      if pathExists l then
        RegionEvent.skipped l :: processLevels pathExists writeShapefile ls
      else
        (match writeShapefile l with
         | .ok _ => RegionEvent.written l
         | .error e => RegionEvent.writeFailed l e)
          :: processLevels pathExists writeShapefile ls

/-- Mirrors `ProcessRegions.process_regions`: iterate the regional
levels `1 .. gid_level` in order.  The function returns the event log;
it has no error outcome because the only fallible step, the shapefile
write, is wrapped in try/except inside the loop. -/
def process_regions (gidLevel : ℕ) (pathExists : ℕ → Bool)
    (writeShapefile : ℕ → Except String Unit) : List RegionEvent :=
  processLevels pathExists writeShapefile (List.range' 1 gidLevel)

/-! ## Population processing -/

/-- Sub-region row of the boundaries shapefile as
`process_population_tif` consumes it: the string columns of the pandas
row as an association list (so that a missing column raises, mirroring
a KeyError), the raster cell values that the geometry of the boundary covers,
the centroid coordinates and the raw geometry area. -/
structure Boundary where
  cols : List (String × String)
  cells : List ℚ
  centroidX : ℚ
  centroidY : ℚ
  geomArea : ℚ
deriving DecidableEq, Repr

/-- Column access `boundary[c]` on a pandas row: the value when the
column exists, a KeyError carrying the key otherwise. -/
def colLookup (cols : List (String × String)) (c : String) :
    Except String String :=
  match cols.find? (fun p => p.1 == c) with
  | some p => .ok p.2
  | none => .error c

/-- Clamping `array[array <= 0] = 0` applied to the raster cells. -/
def clampedArray (cells : List ℚ) : List ℚ :=
  cells.map (fun v => if v ≤ 0 then 0 else v)

/-- Zonal `sum` statistic with `nodata = 255` over the clamped cells a
boundary covers: cells equal to the nodata value are excluded, and the
statistic is `None` when no valid cell remains. -/
def zonalSum (cells : List ℚ) : Option ℚ :=
  let valid := (clampedArray cells).filter (fun v => decide (v ≠ 255))
  if valid.isEmpty then none else some valid.sum

/-- Record appended to `output` for one boundary. -/
structure PopRecord where
  iso3 : String
  region : String
  GID_1 : String
  population : Option ℚ
  latitude : ℚ
  longitude : ℚ
  area : ℚ
deriving DecidableEq, Repr

/-- Body of the `try` block: build the record reading the finer
`GID_2` column; each column access can raise. -/
def tryRecord (b : Boundary) (population : Option ℚ) :
    Except String PopRecord :=
  match colLookup b.cols "GID_0" with
  | .error e => .error e
  | .ok iso3 =>
    match colLookup b.cols "NAME_1" with
    | .error e => .error e
    | .ok region =>
      match colLookup b.cols "GID_2" with
      | .error e => .error e
      | .ok gid =>
          .ok { iso3 := iso3, region := region, GID_1 := gid,
                population := population,
                latitude := b.centroidY, longitude := b.centroidX,
                area := b.geomArea * 12309 }

/-- Body of the `except` block: same record but reading the higher
administrative level column `GID_1`. -/
def exceptRecord (b : Boundary) (population : Option ℚ) :
    Except String PopRecord :=
  match colLookup b.cols "GID_0" with
  | .error e => .error e
  | .ok iso3 =>
    match colLookup b.cols "NAME_1" with
    | .error e => .error e
    | .ok region =>
      match colLookup b.cols "GID_1" with
      | .error e => .error e
      | .ok gid =>
          .ok { iso3 := iso3, region := region, GID_1 := gid,
                population := population,
                latitude := b.centroidY, longitude := b.centroidX,
                area := b.geomArea * 12309 }

/-- Per-boundary step of `process_population_tif`: the zonal population
sum and the centroid are computed, then the record is built, the bare
`except:` catching any failure of the `try` body and retrying with the
`GID_1` column (a failure inside the `except` body itself propagates,
as in Python). -/
def buildRecord (b : Boundary) : Except String PopRecord :=
  let population := zonalSum b.cells
  match tryRecord b population with
  | .ok r => .ok r
  | .error _ => exceptRecord b population

/-- Loop of `process_population_tif` over all boundary rows, appending
one record per row. -/
def buildRecords : List Boundary → Except String (List PopRecord)
  | [] => .ok []
  | b :: bs =>
      match buildRecord b with
      | .error e => .error e
      | .ok r =>
        match buildRecords bs with
        | .error e => .error e
        | .ok rs => .ok (r :: rs)

/-- Row of the final population CSV (the geometry column, carried
through unchanged by the code, is not modelled). -/
structure CsvRow where
  iso3 : String
  region : String
  GID_1 : String
  population : ℤ
  latitude : ℚ
  longitude : ℚ
  area : ℚ
deriving DecidableEq, Repr

/-- Integer coercion `astype(int)`: truncation toward zero, which is
integer division of the numerator by the denominator. -/
def pyInt (q : ℚ) : ℤ :=
  q.num.tdiv (q.den : ℤ)

/-- Round-half-to-even to an integer, as numpy and pandas round. -/
def roundHalfEven (q : ℚ) : ℤ :=
  let f := ⌊q⌋
  let r := q - f
  if r < 1/2 then f
  else if 1/2 < r then f + 1
  else if f % 2 = 0 then f else f + 1

/-- Rounding `round(4)` of the coordinate columns. -/
def round4 (q : ℚ) : ℚ :=
  (roundHalfEven (q * 10000) : ℚ) / 10000

/-- Dataframe finalisation applied to each kept record: the population
column is coerced to integer and the coordinates rounded to four
decimals. -/
def finalizeRow (r : PopRecord) : CsvRow :=
  { iso3 := r.iso3, region := r.region, GID_1 := r.GID_1,
    population := pyInt (r.population.getD 0),
    latitude := round4 r.latitude, longitude := round4 r.longitude,
    area := r.area }

/-- Mirrors `ProcessPopulation.process_population_tif` from the
per-boundary loop to the dataframe written as CSV: build one record per
boundary, drop the rows whose population is null
(the dropna over the population column), coerce the population column to
integer and round the coordinates. -/
def process_population_tif (bs : List Boundary) :
    Except String (List CsvRow) :=
  match buildRecords bs with
  | .error e => .error e
  | .ok output =>
      .ok ((output.filter (fun r => r.population.isSome)).map finalizeRow)

/-! ## Helper lemmas -/

/-- The two-stage country check of the source (CHL/IDN first, then
RUS/GRL/CAN/USA, both yielding 0.01) collapses to the single six-country
check of `smallShapeThreshold`. -/
theorem inline_threshold_eq (gid0 : String) (s : ℚ) :
    (if gid0 ∈ ["CHL", "IDN"] then (1:ℚ)/100
     else if gid0 ∈ ["RUS", "GRL", "CAN", "USA"] then (1:ℚ)/100
     else if s > 50 then 1/10 else 1/1000) = smallShapeThreshold gid0 s := by
  simp only [smallShapeThreshold, List.mem_cons, List.not_mem_nil, or_false]
  by_cases h1 : gid0 = "CHL" ∨ gid0 = "IDN" <;>
    by_cases h2 : gid0 = "RUS" ∨ gid0 = "GRL" ∨ gid0 = "CAN" ∨ gid0 = "USA" <;>
      simp [h1, h2]

/-- Behaviour of `remove_small_shapes` on a multipolygon at or above
the minimum total area: the parts are filtered by the threshold of
`smallShapeThreshold`. -/
theorem rss_mp_large (gid0 : String) (parts : List ℚ)
    (h : ¬ parts.sum < 1/100) :
    remove_small_shapes ⟨gid0, Geometry.multiPolygon parts⟩ =
      some (Geometry.multiPolygon
        (parts.filter (fun y => decide (smallShapeThreshold gid0 parts.sum < y)))) := by
  simp only [remove_small_shapes, h, if_false]
  simp only [← inline_threshold_eq]

/-! ## Claim theorems -/

/-- C2: for every feature whose geometry is a single-part polygon, and
for every feature whose geometry is a multipolygon of total area below
the minimum threshold 0.01, `remove_small_shapes` returns the input
geometry unchanged. -/
theorem remove_small_shapes_passthrough :
    (∀ gid0 a, remove_small_shapes ⟨gid0, Geometry.polygon a⟩ =
        some (Geometry.polygon a)) ∧
    (∀ gid0 parts, parts.sum < 1/100 →
        remove_small_shapes ⟨gid0, Geometry.multiPolygon parts⟩ =
          some (Geometry.multiPolygon parts)) := by
  refine ⟨fun gid0 a => rfl, fun gid0 parts h => ?_⟩
  simp [remove_small_shapes, h]
  intro h'
  rw [one_div] at h
  exact absurd h' (not_le.mpr h)

/-- Witness for C2 at a concrete small multipolygon. -/
theorem remove_small_shapes_passthrough_witness :
    remove_small_shapes ⟨"ZWE", Geometry.multiPolygon [1/200]⟩ =
      some (Geometry.multiPolygon [1/200]) :=
  remove_small_shapes_passthrough.2 "ZWE" [1/200] (by norm_num)

/-- C3: for every feature whose geometry is a multipolygon of total
area at least 0.01, `remove_small_shapes` keeps exactly the parts whose
area exceeds the threshold: 0.01 for CHL, IDN, RUS, GRL, CAN, USA (the
country check taking precedence over the area check), else 0.1 when the
total area exceeds 50, else 0.001. -/
theorem remove_small_shapes_filters_by_threshold :
    ∀ gid0 parts, 1/100 ≤ parts.sum →
      remove_small_shapes ⟨gid0, Geometry.multiPolygon parts⟩ =
        some (Geometry.multiPolygon
          (parts.filter (fun y => decide (smallShapeThreshold gid0 parts.sum < y)))) :=
  fun gid0 parts h => rss_mp_large gid0 parts (not_lt.mpr h)

/-- Witness for C3: a RUS multipolygon of total area above 50 still
uses the country threshold 0.01, keeping the 0.05 part and dropping the
0.005 part. -/
theorem remove_small_shapes_filters_by_threshold_witness :
    remove_small_shapes ⟨"RUS", Geometry.multiPolygon [60, 1/20, 1/200]⟩ =
        some (Geometry.multiPolygon
          (([60, 1/20, 1/200] : List ℚ).filter
            (fun y => decide (smallShapeThreshold "RUS" ([60, 1/20, 1/200] : List ℚ).sum < y)))) ∧
      (([60, 1/20, 1/200] : List ℚ).filter
        (fun y => decide (smallShapeThreshold "RUS" ([60, 1/20, 1/200] : List ℚ).sum < y)))
        = [60, 1/20] :=
  ⟨remove_small_shapes_filters_by_threshold "RUS" [60, 1/20, 1/200] (by norm_num),
   by norm_num [smallShapeThreshold]⟩

/-- C4 counterexample: a CHL multipolygon of two parts of area 0.01
each has total area 0.02 ≥ 0.01 and country threshold 0.01, which no
part strictly exceeds, so every part is discarded and the returned
geometry is an empty multipolygon. -/
theorem remove_small_shapes_can_discard_all_parts :
    remove_small_shapes ⟨"CHL", Geometry.multiPolygon [1/100, 1/100]⟩ =
        some (Geometry.multiPolygon []) ∧
      ¬ (Geometry.multiPolygon ([] : List ℚ)).hasParts := by
  constructor
  · norm_num [remove_small_shapes]
  · simp [Geometry.hasParts]

/-- C4 (amended): the geometry returned by `remove_small_shapes` is
non-empty for every polygon, for every non-empty multipolygon of total
area below 0.01, and for every multipolygon of total area at least 0.01
at least one of whose parts exceeds the applicable threshold; when no
part exceeds the threshold all parts are discarded. -/
theorem remove_small_shapes_nonempty_of_part_above_threshold :
    (∀ gid0 a, ∃ g, remove_small_shapes ⟨gid0, Geometry.polygon a⟩ =
        some g ∧ g.hasParts) ∧
    (∀ gid0 parts, parts ≠ [] → parts.sum < 1/100 →
        ∃ g, remove_small_shapes ⟨gid0, Geometry.multiPolygon parts⟩ =
          some g ∧ g.hasParts) ∧
    (∀ gid0 parts, 1/100 ≤ parts.sum →
        (∃ y ∈ parts, smallShapeThreshold gid0 parts.sum < y) →
        ∃ g, remove_small_shapes ⟨gid0, Geometry.multiPolygon parts⟩ =
          some g ∧ g.hasParts) := by
  refine ⟨fun gid0 a => ⟨Geometry.polygon a, rfl, trivial⟩,
          fun gid0 parts hne h => ⟨Geometry.multiPolygon parts, ?_, hne⟩,
          fun gid0 parts h ⟨y, hy, hthr⟩ => ?_⟩
  · simp [remove_small_shapes, h]
    intro h'
    rw [one_div] at h
    exact absurd h' (not_le.mpr h)
  · refine ⟨_, rss_mp_large gid0 parts (not_lt.mpr h), ?_⟩
    have hmem : y ∈ parts.filter
        (fun y => decide (smallShapeThreshold gid0 parts.sum < y)) :=
      List.mem_filter.mpr ⟨hy, by simpa using hthr⟩
    exact List.ne_nil_of_mem hmem

/-- Witness for C4 (amended) at a concrete multipolygon with one part
above the threshold. -/
theorem remove_small_shapes_nonempty_witness :
    ∃ g, remove_small_shapes ⟨"RUS", Geometry.multiPolygon [60, 1/20, 1/200]⟩ =
      some g ∧ g.hasParts :=
  remove_small_shapes_nonempty_of_part_above_threshold.2.2 "RUS"
    [60, 1/20, 1/200] (by norm_num)
    ⟨60, by norm_num, by norm_num [smallShapeThreshold]⟩

/-- C9: for every feature whose geometry type is neither polygon nor
multipolygon, `remove_small_shapes` falls through every branch and
returns `None`. -/
theorem remove_small_shapes_none_on_other_types :
    ∀ gid0 t, remove_small_shapes ⟨gid0, Geometry.other t⟩ = none :=
  fun _ _ => rfl

/-- Sums of products whose left factor is drawn from a list of zeros
vanish. -/
theorem sum_products_of_zero_weights (qs : List (ℚ × ℚ))
    (h : ∀ p ∈ qs, p.1 ∈ allWeightValues zeroWeights) :
    (qs.map (fun p => p.1 * p.2)).sum = 0 := by
  induction qs with
  | nil => simp
  | cons p ps ih =>
      have h1 : p.1 = 0 := by
        have hp := h p (List.mem_cons_self p ps)
        simpa [allWeightValues, zeroWeights] using hp
      have := ih (fun q hq => h q (List.mem_cons_of_mem p hq))
      simp [h1, this]

/-- C1 counterexample: instantiate the modelled tables with every
manufacturing weight zero and the transport factor
`olnu_router_kg_co2e = 5`.  The transport total `optic_fiber_ghg` is
then 5, yet every sum of products of a weight taken from the weights
table with any factor is 0, so the total is not such a sum: `lca_trans`
reads the carbon factor directly without multiplying by a weight. -/
theorem lca_trans_total_not_weight_factor_sum :
    ¬ ∃ ps : List (ℚ × ℚ),
        (∀ p ∈ ps, p.1 ∈ allWeightValues zeroWeights) ∧
        (lca_trans cexCarbonFactors).optic_fiber_ghg =
          (ps.map (fun p => p.1 * p.2)).sum := by
  rintro ⟨ps, hmem, heq⟩
  rw [sum_products_of_zero_weights ps hmem] at heq
  norm_num [lca_trans, cexCarbonFactors] at heq

/-- C1 (amended): in `lca_manufacturing` and `lca_eolt` each material
category total equals the sum of weight × carbon-factor products from
the lookup tables (in particular manufacturing `aluminium_ghg` is
`(aluminium_bru_kg + aluminium_antenna_kg + aluminium_frame_kg +
aluminium_device_kg) * aluminium_kg_co2e`); `lca_trans` returns the
bare `olnu_router_kg_co2e` carbon factor with no weight product; and
`lca_operations` copies the power values of the last record of the
operations table. -/
theorem lca_category_totals :
    ∀ (w : Weights) (cf : CarbonFactors)
      (rs : List (String × OperationRecord)) (k : String)
      (op : OperationRecord),
      (lca_manufacturing w cf).aluminium_ghg =
          (w.manufacturing.aluminium_bru_kg + w.manufacturing.aluminium_antenna_kg +
           w.manufacturing.aluminium_frame_kg + w.manufacturing.aluminium_device_kg) *
            cf.mfg_emissions.aluminium_kg_co2e ∧
      (lca_manufacturing w cf).optic_fiber_ghg =
          w.manufacturing.fiber_cable_per_km_kg * cf.mfg_emissions.glass_kg_co2e ∧
      (lca_manufacturing w cf).steel_iron_ghg =
          w.manufacturing.iron_antenna_kg * cf.mfg_emissions.iron_kg_co2e +
          w.manufacturing.steel_antenna_kg * cf.mfg_emissions.steel_kg_co2e ∧
      (lca_manufacturing w cf).concrete_ghg =
          w.manufacturing.concrete_kg * cf.mfg_emissions.concrete_kg_co2e ∧
      (lca_manufacturing w cf).plastics_ghg =
          w.manufacturing.pcb_kg * cf.mfg_emissions.pcb_kg_co2e +
          w.manufacturing.pvc_antenna_kg * cf.mfg_emissions.pvc_kg_co2e ∧
      (lca_manufacturing w cf).other_metals_ghg =
          w.manufacturing.copper_antenna_kg * cf.mfg_emissions.copper_kg_co2e ∧
      (lca_eolt w cf).aluminium_ghg =
          (w.manufacturing.aluminium_bru_kg + w.manufacturing.aluminium_antenna_kg +
           w.manufacturing.aluminium_frame_kg + w.manufacturing.aluminium_device_kg) *
            cf.eolt_emissions.metals_kg_co2e ∧
      (lca_eolt w cf).optic_fiber_ghg =
          w.manufacturing.fiber_cable_per_km_kg * cf.eolt_emissions.glass_kg_co2e ∧
      (lca_eolt w cf).steel_iron_ghg =
          (w.manufacturing.iron_antenna_kg + w.manufacturing.steel_antenna_kg) *
            cf.eolt_emissions.metals_kg_co2e ∧
      (lca_eolt w cf).concrete_ghg =
          w.manufacturing.concrete_kg * cf.eolt_emissions.concrete_kg_co2e ∧
      (lca_eolt w cf).plastics_ghg =
          (w.manufacturing.pcb_kg + w.manufacturing.pvc_antenna_kg) *
            cf.eolt_emissions.pcb_kg_co2e ∧
      (lca_eolt w cf).other_metals_ghg =
          w.manufacturing.copper_antenna_kg * cf.eolt_emissions.metals_kg_co2e ∧
      (lca_trans cf).optic_fiber_ghg = cf.trans_emissions.olnu_router_kg_co2e ∧
      lca_operations (rs ++ [(k, op)]) =
          some { cpe_power := op.cpe_power_kwh,
                 base_station_power_kwh := op.base_station_pwr_kwh,
                 terminal_unit_pwr_kwh := op.terminal_unit_pwr_kwh,
                 lca_phase := "ops" } := by
  intro w cf rs k op
  refine ⟨by simp only [lca_manufacturing]; ring, rfl, rfl, rfl, rfl, rfl,
          by simp only [lca_eolt]; ring, rfl,
          by simp only [lca_eolt]; ring, rfl,
          by simp only [lca_eolt]; ring, rfl, rfl, ?_⟩
  simp [lca_operations, List.foldl_append]

/-- Levels of the events of the region loop are exactly the processed
levels, in order. -/
theorem processLevels_map_level (pe : ℕ → Bool)
    (w : ℕ → Except String Unit) :
    ∀ ls : List ℕ, (processLevels pe w ls).map RegionEvent.level = ls := by
  intro ls
  induction ls with
  | nil => rfl
  | cons l ls ih =>
      by_cases h : pe l
      · simp [processLevels, h, RegionEvent.level, ih]
      · rcases hw : w l with e | u <;>
          simp [processLevels, h, hw, RegionEvent.level, ih]

/-- A logged write failure for a level means the shapefile write of
that level raised exactly that error and the output did not exist. -/
theorem processLevels_writeFailed_mem (pe : ℕ → Bool)
    (w : ℕ → Except String Unit) :
    ∀ (ls : List ℕ) (l : ℕ) (e : String),
      RegionEvent.writeFailed l e ∈ processLevels pe w ls →
      w l = .error e ∧ pe l = false := by
  intro ls
  induction ls with
  | nil => intro l e h; simp [processLevels] at h
  | cons hd tl ih =>
      intro l e hmem
      simp only [processLevels] at hmem
      by_cases h : pe hd
      · rw [if_pos h] at hmem
        rcases List.mem_cons.mp hmem with heq | hmem2
        · simp at heq
        · exact ih l e hmem2
      · rw [if_neg h] at hmem
        rcases hw : w hd with msg | u
        · rw [hw] at hmem
          rcases List.mem_cons.mp hmem with heq | hmem2
          · injection heq with h1 h2
            subst h1; subst h2
            exact ⟨hw, by simpa using h⟩
          · exact ih l e hmem2
        · rw [hw] at hmem
          rcases List.mem_cons.mp hmem with heq | hmem2
          · simp at heq
          · exact ih l e hmem2

/-- A successful-write event for a level means the shapefile write of
that level returned successfully. -/
theorem processLevels_written_mem (pe : ℕ → Bool)
    (w : ℕ → Except String Unit) :
    ∀ (ls : List ℕ) (l : ℕ),
      RegionEvent.written l ∈ processLevels pe w ls → w l = .ok () := by
  intro ls
  induction ls with
  | nil => intro l h; simp [processLevels] at h
  | cons hd tl ih =>
      intro l hmem
      simp only [processLevels] at hmem
      by_cases h : pe hd
      · rw [if_pos h] at hmem
        rcases List.mem_cons.mp hmem with heq | hmem2
        · simp at heq
        · exact ih l hmem2
      · rw [if_neg h] at hmem
        rcases hw : w hd with msg | u
        · rw [hw] at hmem
          rcases List.mem_cons.mp hmem with heq | hmem2
          · simp at heq
          · exact ih l hmem2
        · rw [hw] at hmem
          rcases List.mem_cons.mp hmem with heq | hmem2
          · injection heq with h1
            subst h1
            cases u
            exact hw
          · exact ih l hmem2

/-- C8: `process_regions` emits exactly one event per regional level
1..gid_level in order, so a write failure at one level never stops the
following levels; each failure is caught and logged with the raised
message; and a level whose write failed has no successful-write event,
i.e. the failed write is not retried. -/
theorem process_regions_continues_after_failure :
    ∀ (gidLevel : ℕ) (pathExists : ℕ → Bool)
      (writeShapefile : ℕ → Except String Unit),
      (process_regions gidLevel pathExists writeShapefile).map RegionEvent.level
          = List.range' 1 gidLevel ∧
      (∀ l e, RegionEvent.writeFailed l e ∈
            process_regions gidLevel pathExists writeShapefile →
          writeShapefile l = .error e ∧ pathExists l = false) ∧
      (∀ l e, RegionEvent.writeFailed l e ∈
            process_regions gidLevel pathExists writeShapefile →
          RegionEvent.written l ∉
            process_regions gidLevel pathExists writeShapefile) := by
  intro gl pe w
  refine ⟨processLevels_map_level pe w _,
          fun l e h => processLevels_writeFailed_mem pe w _ l e h,
          fun l e hf hw => ?_⟩
  have h1 := (processLevels_writeFailed_mem pe w _ l e hf).1
  have h2 := processLevels_written_mem pe w _ l hw
  rw [h1] at h2
  cases h2

/-- C10: `get_countries` returns exactly the roster rows whose Exclude
flag equals 0 — the output is a permutation of the filtered roster and
a row belongs to it precisely when it belongs to the roster with
Exclude 0 — in an order chosen by the sampler, and two admissible
samplers can return the same rows in different orders, so the order is
not determined by the input. -/
theorem get_countries_filters_exclude :
    ∀ (sample : List CountryRow → List CountryRow) (rows : List CountryRow),
      (∀ l, (sample l).Perm l) →
      (get_countries sample rows).Perm
          (rows.filter (fun r => decide (r.exclude = 0))) ∧
      (∀ r, r ∈ get_countries sample rows ↔ r ∈ rows ∧ r.exclude = 0) ∧
      ∃ (s₁ s₂ : List CountryRow → List CountryRow) (rs : List CountryRow),
        (∀ l, (s₁ l).Perm l) ∧ (∀ l, (s₂ l).Perm l) ∧
        get_countries s₁ rs ≠ get_countries s₂ rs := by
  intro sample rows hs
  refine ⟨hs _, fun r => ?_, ?_⟩
  · rw [get_countries, (hs _).mem_iff, List.mem_filter]
    simp
  · refine ⟨id, List.reverse, [⟨"AAA", 0⟩, ⟨"BBB", 0⟩],
      fun l => List.Perm.refl l, fun l => List.reverse_perm l, ?_⟩
    decide

/-- Witness for C10 at a concrete roster with the identity sampler. -/
theorem get_countries_filters_exclude_witness :
    (get_countries id [⟨"USA", 0⟩, ⟨"PRK", 1⟩, ⟨"CAN", 0⟩]).Perm
        (([⟨"USA", 0⟩, ⟨"PRK", 1⟩, ⟨"CAN", 0⟩] : List CountryRow).filter
          (fun r => decide (r.exclude = 0))) :=
  (get_countries_filters_exclude id _ (fun l => List.Perm.refl l)).1

/-- Every cell of the clamped raster is non-negative. -/
theorem clampedArray_nonneg (cells : List ℚ) :
    ∀ v ∈ clampedArray cells, 0 ≤ v := by
  intro v hv
  rcases List.mem_map.mp hv with ⟨u, _, rfl⟩
  by_cases h : u ≤ 0
  · simp [h]
  · simp only [h, if_false]
    exact le_of_lt (lt_of_not_le h)

/-- A present zonal sum is non-negative: it sums clamped cells. -/
theorem zonalSum_nonneg (cells : List ℚ) (q : ℚ)
    (h : zonalSum cells = some q) : 0 ≤ q := by
  simp only [zonalSum] at h
  split at h
  · cases h
  · injection h with h1
    subst h1
    refine List.sum_nonneg fun x hx => ?_
    exact clampedArray_nonneg cells x (List.mem_of_mem_filter hx)

/-- Truncation toward zero preserves non-negativity. -/
theorem pyInt_nonneg (q : ℚ) (h : 0 ≤ q) : 0 ≤ pyInt q := by
  unfold pyInt
  exact Int.tdiv_nonneg (Rat.num_nonneg.mpr h) (Int.natCast_nonneg q.den)

/-- The record built by the `try` body carries the population sum it
was given. -/
theorem tryRecord_population (b : Boundary) (pop : Option ℚ)
    (r : PopRecord) (h : tryRecord b pop = .ok r) : r.population = pop := by
  unfold tryRecord at h
  split at h
  · cases h
  · split at h
    · cases h
    · split at h
      · cases h
      · injection h with h2
        subst h2
        rfl

/-- The record built by the `except` body carries the population sum it
was given. -/
theorem exceptRecord_population (b : Boundary) (pop : Option ℚ)
    (r : PopRecord) (h : exceptRecord b pop = .ok r) : r.population = pop := by
  unfold exceptRecord at h
  split at h
  · cases h
  · split at h
    · cases h
    · split at h
      · cases h
      · injection h with h2
        subst h2
        rfl

/-- Whichever branch produced it, a record built for a boundary carries
the zonal population sum of the cells of that boundary. -/
theorem buildRecord_population (b : Boundary) (r : PopRecord)
    (h : buildRecord b = .ok r) : r.population = zonalSum b.cells := by
  simp only [buildRecord] at h
  split at h
  · rename_i r0 heq
    injection h with h2
    subst h2
    exact tryRecord_population b _ r0 heq
  · exact exceptRecord_population b _ r h

/-- Every record in the output list was built from some boundary of the
input. -/
theorem buildRecords_mem (bs : List Boundary) (recs : List PopRecord)
    (h : buildRecords bs = .ok recs) :
    ∀ p ∈ recs, ∃ b ∈ bs, buildRecord b = .ok p := by
  induction bs generalizing recs with
  | nil =>
      simp only [buildRecords] at h
      injection h with h1
      subst h1
      intro p hp
      simp at hp
  | cons b bs ih =>
      simp only [buildRecords] at h
      split at h
      · cases h
      · rename_i r heq
        split at h
        · cases h
        · rename_i rs heq2
          injection h with h3
          subst h3
          intro p hp
          rcases List.mem_cons.mp hp with rfl | hp2
          · exact ⟨b, List.mem_cons_self b bs, heq⟩
          · rcases ih rs heq2 p hp2 with ⟨b2, hb2, hro⟩
            exact ⟨b2, List.mem_cons_of_mem b hb2, hro⟩

/-- C5: every population value of the CSV rows produced by
`process_population_tif` is non-negative.  Cells at most 0 are zeroed
and nodata cells excluded before the zonal sum, so every present sum is
non-negative, and the column is coerced to an integer (the `ℤ`-valued
field) by truncation. -/
theorem process_population_tif_nonneg :
    ∀ (bs : List Boundary) (rows : List CsvRow) (r : CsvRow),
      process_population_tif bs = .ok rows → r ∈ rows →
      0 ≤ r.population := by
  intro bs rows r hok hmem
  unfold process_population_tif at hok
  split at hok
  · cases hok
  · rename_i recs heq
    injection hok with h1
    subst h1
    rcases List.mem_map.mp hmem with ⟨p, hp, rfl⟩
    have hmf := List.mem_filter.mp hp
    rcases buildRecords_mem bs recs heq p hmf.1 with ⟨b, _, hb⟩
    have hpop := buildRecord_population b p hb
    rcases Option.isSome_iff_exists.mp (by simpa using hmf.2) with ⟨q, hq⟩
    have hq2 : zonalSum b.cells = some q := hpop ▸ hq
    have hq0 : 0 ≤ q := zonalSum_nonneg b.cells q hq2
    show 0 ≤ (finalizeRow p).population
    simp only [finalizeRow, hq, Option.getD_some]
    exact pyInt_nonneg q hq0

/-- Witness for C5: one boundary whose covered cells are `[3]` yields a
CSV row with population 3, and the claim theorem gives 0 ≤ 3. -/
theorem process_population_tif_nonneg_witness :
    (0 : ℤ) ≤ (⟨"KEN", "Nairobi", "KEN.1_1", 3, 0, 0, 0⟩ : CsvRow).population :=
  process_population_tif_nonneg
    [⟨[("GID_0", "KEN"), ("NAME_1", "Nairobi"), ("GID_1", "KEN.1_1")], [3], 0, 0, 0⟩]
    [⟨"KEN", "Nairobi", "KEN.1_1", 3, 0, 0, 0⟩]
    ⟨"KEN", "Nairobi", "KEN.1_1", 3, 0, 0, 0⟩
    (by simp only [process_population_tif, buildRecords, buildRecord, tryRecord,
          exceptRecord, colLookup, zonalSum, clampedArray, List.find?,
          String.reduceBEq]
        norm_num [finalizeRow, pyInt, round4, roundHalfEven])
    (by simp)

/-- C6: the CSV rows written by `process_population_tif` are exactly
the finalisations of the records whose population is present — the
`dropna` removes every record with a null population before the frame
is written — so every CSV row originates from a record with a non-null
population sum. -/
theorem process_population_tif_drops_null :
    ∀ (bs : List Boundary) (recs : List PopRecord) (rows : List CsvRow),
      buildRecords bs = .ok recs →
      process_population_tif bs = .ok rows →
      rows = (recs.filter (fun p => p.population.isSome)).map finalizeRow ∧
      ∀ r ∈ rows, ∃ p ∈ recs, p.population.isSome ∧ r = finalizeRow p := by
  intro bs recs rows hrecs hok
  simp only [process_population_tif, hrecs] at hok
  injection hok with h1
  subst h1
  refine ⟨rfl, fun r hr => ?_⟩
  rcases List.mem_map.mp hr with ⟨p, hp, rfl⟩
  have hmf := List.mem_filter.mp hp
  exact ⟨p, hmf.1, hmf.2, rfl⟩

/-- Witness for C6: of two boundaries, one all-nodata (null population)
and one with a cell value 3, only the row of the latter reaches the CSV. -/
theorem process_population_tif_drops_null_witness :
    ([⟨"KEN", "Nairobi", "KEN.1_1", 3, 0, 0, 0⟩] : List CsvRow) =
        (([⟨"KEN", "Coast", "KEN.2_1", none, 0, 0, 0⟩,
           ⟨"KEN", "Nairobi", "KEN.1_1", some 3, 0, 0, 0⟩] : List PopRecord).filter
          (fun p => p.population.isSome)).map finalizeRow ∧
      ∀ r ∈ ([⟨"KEN", "Nairobi", "KEN.1_1", 3, 0, 0, 0⟩] : List CsvRow),
        ∃ p ∈ ([⟨"KEN", "Coast", "KEN.2_1", none, 0, 0, 0⟩,
                ⟨"KEN", "Nairobi", "KEN.1_1", some 3, 0, 0, 0⟩] : List PopRecord),
          p.population.isSome ∧ r = finalizeRow p :=
  process_population_tif_drops_null
    [⟨[("GID_0", "KEN"), ("NAME_1", "Coast"), ("GID_1", "KEN.2_1")], [255], 0, 0, 0⟩,
     ⟨[("GID_0", "KEN"), ("NAME_1", "Nairobi"), ("GID_1", "KEN.1_1")], [3], 0, 0, 0⟩]
    [⟨"KEN", "Coast", "KEN.2_1", none, 0, 0, 0⟩,
     ⟨"KEN", "Nairobi", "KEN.1_1", some 3, 0, 0, 0⟩]
    [⟨"KEN", "Nairobi", "KEN.1_1", 3, 0, 0, 0⟩]
    (by simp only [buildRecords, buildRecord, tryRecord, exceptRecord,
          colLookup, zonalSum, clampedArray, List.find?, String.reduceBEq]
        norm_num)
    (by simp only [process_population_tif, buildRecords, buildRecord, tryRecord,
          exceptRecord, colLookup, zonalSum, clampedArray, List.find?,
          String.reduceBEq]
        norm_num [finalizeRow, pyInt, round4, roundHalfEven])

/-- C7: when the standard shapefile columns GID_0, NAME_1 and GID_1
are present, `buildRecord` always returns a record — the KeyError
raised on a missing GID_2 column is caught and does not propagate —
and the ID field of the record carries the GID_2 value when that column
exists and the GID_1 value otherwise. -/
theorem buildRecord_gid_fallback :
    ∀ (b : Boundary) (g0 n1 g1 : String),
      colLookup b.cols "GID_0" = .ok g0 →
      colLookup b.cols "NAME_1" = .ok n1 →
      colLookup b.cols "GID_1" = .ok g1 →
      ∃ r, buildRecord b = .ok r ∧
        (∀ g2, colLookup b.cols "GID_2" = .ok g2 → r.GID_1 = g2) ∧
        (∀ e, colLookup b.cols "GID_2" = .error e → r.GID_1 = g1) := by
  intro b g0 n1 g1 h0 h1 h2
  rcases hg2 : colLookup b.cols "GID_2" with e | g2
  · have htry : tryRecord b (zonalSum b.cells) = .error e := by
      simp only [tryRecord, h0, h1, hg2]
    have hex : exceptRecord b (zonalSum b.cells) = .ok
        { iso3 := g0, region := n1, GID_1 := g1,
          population := zonalSum b.cells,
          latitude := b.centroidY, longitude := b.centroidX,
          area := b.geomArea * 12309 } := by
      simp only [exceptRecord, h0, h1, h2]
    refine ⟨{ iso3 := g0, region := n1, GID_1 := g1,
              population := zonalSum b.cells,
              latitude := b.centroidY, longitude := b.centroidX,
              area := b.geomArea * 12309 }, ?_, ?_, fun e2 he2 => rfl⟩
    · simp only [buildRecord, htry, hex]
    · intro g2 hok
      exact Except.noConfusion hok
  · have htry : tryRecord b (zonalSum b.cells) = .ok
        { iso3 := g0, region := n1, GID_1 := g2,
          population := zonalSum b.cells,
          latitude := b.centroidY, longitude := b.centroidX,
          area := b.geomArea * 12309 } := by
      simp only [tryRecord, h0, h1, hg2]
    refine ⟨{ iso3 := g0, region := n1, GID_1 := g2,
              population := zonalSum b.cells,
              latitude := b.centroidY, longitude := b.centroidX,
              area := b.geomArea * 12309 }, ?_, ?_, ?_⟩
    · simp only [buildRecord, htry]
    · intro g2x hok
      injection hok
    · intro e2 he2
      exact Except.noConfusion he2

/-- Witness for C7 at a boundary row without a GID_2 column: the
record is still produced and its ID field falls back to GID_1. -/
theorem buildRecord_gid_fallback_witness :
    ∃ r, buildRecord
        ⟨[("GID_0", "KEN"), ("NAME_1", "Nairobi"), ("GID_1", "KEN.1_1")],
         [], 0, 0, 0⟩ = .ok r ∧
      (∀ g2, colLookup
          [("GID_0", "KEN"), ("NAME_1", "Nairobi"), ("GID_1", "KEN.1_1")]
          "GID_2" = .ok g2 → r.GID_1 = g2) ∧
      (∀ e, colLookup
          [("GID_0", "KEN"), ("NAME_1", "Nairobi"), ("GID_1", "KEN.1_1")]
          "GID_2" = .error e → r.GID_1 = "KEN.1_1") :=
  buildRecord_gid_fallback
    ⟨[("GID_0", "KEN"), ("NAME_1", "Nairobi"), ("GID_1", "KEN.1_1")], [], 0, 0, 0⟩
    "KEN" "Nairobi" "KEN.1_1"
    (by simp [colLookup, List.find?])
    (by simp [colLookup, List.find?])
    (by simp [colLookup, List.find?])

/-- Witness for C8 at a concrete plan: the level-1 write fails, level 2
is skipped as already processed, level 3 is written; every level still
has exactly one event in order. -/
theorem process_regions_continues_after_failure_witness :
    (process_regions 3 (fun l => l == 2)
        (fun l => if l == 1 then .error "disk full" else .ok ())).map
        RegionEvent.level = List.range' 1 3 :=
  (process_regions_continues_after_failure 3 (fun l => l == 2)
    (fun l => if l == 1 then .error "disk full" else .ok ())).1
